import Mathlib

/-!
Verification of the mutual-fund cache and search layer
(`background/nav_redis.py`, `background/search.py`, `app.py`).

The Python modules are shallowly embedded: the Redis store is a record of
three association lists (scalar keys, set keys, autocomplete suggestion
keys), each cache method becomes a Lean function on that state, and the
rebuild is a fold over the operation list that `_async_update_mf_cache`
builds and gathers.
-/

namespace MFApi

/-! ### Key-space constants (nav_redis.py, lines 12-22) -/

def SCHEME_TYPE_PREFIX : String := "SCHEME_TYPE"
def SCHEME_SUB_TYPE_PREFIX : String := "SCHEME_SUB_TYPE"
def SCHEME_SUB_TYPE_FUND_HOUSE_PREFIX : String := "SCHEME_SUB_TYPE_FUND_HOUSE"
def FUND_HOUSE_PREFIX : String := "FUND_HOUSE"
def FUND_PREFIX : String := "FUND"
def PREFIX_DELIMTER : String := ":"

def FUND_HOUSE_AUTOCOMPLETER_KEY : String := "fund_house_ac"
def FUND_AUTOCOMPLETER_KEY : String := "fund_ac"
def SCHEME_SUB_TYPE_AUTOCOMPLETER_KEY : String := "scheme_sub_type_ac"
def SCHEME_SUB_TYPE_FUND_HOUSE_AUTOCOMPLETER_KEY : String := "scheme_sub_type_fund_house_ac"

/-! ### Python `str.replace(old, '')` (used by `replace_prefix`, nav_redis.py line 67)

Python's `str.replace` deletes every non-overlapping occurrence of the
pattern, scanning left to right.  `removeAllAux` is the fuel-indexed
structural version (fuel = length of the scanned string suffices because
each step consumes at least one character when the pattern is nonempty). -/

def removeAllAux (pat : List Char) : Nat → List Char → List Char
  | 0, s => s
  | _ + 1, [] => []
  | fuel + 1, c :: rest =>
    if pat.isPrefixOf (c :: rest) && !pat.isEmpty then
      removeAllAux pat fuel ((c :: rest).drop pat.length)
    else
      c :: removeAllAux pat fuel rest

def removeAll (pat s : List Char) : List Char :=
  removeAllAux pat s.length s

/-- Bool test: does `pat` occur as a contiguous run inside `s`?
(`hasInfix [] s = true` always, matching `isPrefixOf` on `[]`.) -/
def hasInfix (pat : List Char) : List Char → Bool
  | [] => pat.isEmpty
  | c :: rest => pat.isPrefixOf (c :: rest) || hasInfix pat rest

/-- nav_redis.py line 67:
`replace_prefix = lambda prefix, item: str(item).replace(f'{prefix}{PREFIX_DELIMTER}', '')`. -/
def replacePrefix (pre item : String) : String :=
  String.mk (removeAll (pre ++ PREFIX_DELIMTER).data item.data)

/-! ### Python `str.split(':')` (search.py lines 36, 41) -/

def splitOnDelim (d : Char) : List Char → List (List Char)
  | [] => [[]]
  | c :: rest =>
    match splitOnDelim d rest with
    | [] => [[]]
    | h :: t => if c = d then [] :: h :: t else (c :: h) :: t

/-- `s.split(PREFIX_DELIMTER)` for the one-character delimiter `':'`. -/
def pySplit (s : String) : List String :=
  (splitOnDelim ':' s.data).map String.mk

/-! ### The fund record (external `amfi.Fund` dataclass)

Fields as listed by the spec data model: the six scraped attributes plus
the three containing identifiers stamped in during a rebuild
(nav_redis.py lines 158-160). -/

structure Fund where
  SchemeCode : String
  SchemeName : String
  ISINDivPayoutGrowth : String
  ISINDivReinvestment : String
  NAV : String
  Date : String
  SchemeType : String
  SchemeSubType : String
  SchemeFundHouse : String
deriving DecidableEq, Repr

/-! ### Serialization

Modelled from the spec: `amfi.serialize_fund` / `amfi.deserialize_fund`
live in the external `amfi` package (not under src/); the spec says fund
records are persisted "as a flat structured record (field-for-field, no
nesting) in a textual self-describing format".  We use a concrete
self-describing flat encoding: each field is written as a unary length
tag, a `'0'` separator, then the field's characters. -/

def encodeLen : Nat → List Char
  | 0 => []
  | n + 1 => '1' :: encodeLen n

def encodeField (s : String) : List Char :=
  encodeLen s.length ++ '0' :: s.data

def decodeLen : List Char → Nat × List Char
  | [] => (0, [])
  | c :: rest =>
    if c = '1' then
      let (n, r) := decodeLen rest
      (n + 1, r)
    else
      (0, c :: rest)

def decodeField (l : List Char) : String × List Char :=
  let (n, r) := decodeLen l
  match r with
  | '0' :: r' => (String.mk (r'.take n), r'.drop n)
  | _ => ("", [])

def encodeFields : List String → List Char
  | [] => []
  | s :: rest => encodeField s ++ encodeFields rest

def decodeFields : Nat → List Char → List String
  | 0, _ => []
  | n + 1, l =>
    let d := decodeField l
    d.1 :: decodeFields n d.2

def serialize_fund (f : Fund) : String :=
  String.mk (encodeFields [f.SchemeCode, f.SchemeName, f.ISINDivPayoutGrowth,
    f.ISINDivReinvestment, f.NAV, f.Date, f.SchemeType, f.SchemeSubType, f.SchemeFundHouse])

def deserialize_fund (s : String) : Fund :=
  match decodeFields 9 s.data with
  | [c1, c2, c3, c4, c5, c6, c7, c8, c9] =>
    ⟨c1, c2, c3, c4, c5, c6, c7, c8, c9⟩
  | _ => ⟨"", "", "", "", "", "", "", "", ""⟩

/-! ### The Redis store state

`kv` models scalar keys written by `SET` / read by `GET`; `sets` models
set keys written by `SADD` / read by `SMEMBERS`; `acs` models the
suggestion dictionaries of the four RediSearch autocompleters
(`FT.SUGADD` registers a suggestion string under the autocompleter's
key). -/

structure Store where
  kv : List (String × String)
  sets : List (String × List String)
  acs : List (String × List String)
deriving DecidableEq, Repr

def emptyStore : Store := ⟨[], [], []⟩

def alookup {α : Type} : List (String × α) → String → Option α
  | [], _ => none
  | (k', v) :: rest, k => if k' = k then some v else alookup rest k

def ainsert {α : Type} : List (String × α) → String → α → List (String × α)
  | [], k, v => [(k, v)]
  | (k', v') :: rest, k, v =>
    if k' = k then (k, v) :: rest else (k', v') :: ainsert rest k v

/-- Members of `new` not already in `old` are appended (Redis `SADD`
union semantics; only membership matters for the claims). -/
def listUnion (old new : List String) : List String :=
  old ++ new.filter (fun m => !(decide (m ∈ old)))

def redis_get (s : Store) (k : String) : Option String := alookup s.kv k

def redis_set (s : Store) (k v : String) : Store :=
  { s with kv := ainsert s.kv k v }

def smembers (s : Store) (k : String) : List String :=
  (alookup s.sets k).getD []

def store_sadd (s : Store) (k : String) (ms : List String) : Store :=
  { s with sets := ainsert s.sets k (listUnion (smembers s k) ms) }

/-- Store-level failures.  redis-py raises
`wrong number of arguments for 'sadd'` when called with no members;
nothing else in the modelled command set can fail. -/
inductive StoreErr where
  | emptySetAdd (key : String)
deriving DecidableEq, Repr

def sadd (s : Store) (k : String) (ms : List String) : Except StoreErr Store :=
  if ms.isEmpty then Except.error (StoreErr.emptySetAdd k)
  else Except.ok (store_sadd s k ms)

def suggestions (s : Store) (acKey : String) : List String :=
  (alookup s.acs acKey).getD []

/-- `FT.SUGADD`: register a suggestion string under an autocompleter key
(re-adding an existing string only updates its score). -/
def sugadd (s : Store) (acKey sug : String) : Store :=
  let cur := suggestions s acKey
  { s with acs := ainsert s.acs acKey (if sug ∈ cur then cur else cur ++ [sug]) }

/-- Redis `KEYS` scans the whole keyspace. -/
def allKeys (s : Store) : List String :=
  s.kv.map Prod.fst ++ s.sets.map Prod.fst ++ s.acs.map Prod.fst

/-! ### AMFINavCache errors (nav_redis.py lines 51-65) -/

inductive CacheErr where
  | fundKeyNotFound (key : String)
  | fundHouseKeyNotFound (key : String)
deriving DecidableEq, Repr

/-! ### AMFINavCache storage keys (nav_redis.py lines 116, 120, 126, 132, 139) -/

def stKey (scheme_type : String) : String :=
  SCHEME_TYPE_PREFIX ++ PREFIX_DELIMTER ++ scheme_type

def sstKey (scheme_type scheme_sub_type : String) : String :=
  SCHEME_SUB_TYPE_PREFIX ++ PREFIX_DELIMTER ++ scheme_type ++ PREFIX_DELIMTER ++ scheme_sub_type

def sstfhKey (scheme_sub_type fund_house_name : String) : String :=
  SCHEME_SUB_TYPE_FUND_HOUSE_PREFIX ++ PREFIX_DELIMTER ++ scheme_sub_type
    ++ PREFIX_DELIMTER ++ fund_house_name

def fundHouseKey (fund_house_name : String) : String :=
  FUND_HOUSE_PREFIX ++ PREFIX_DELIMTER ++ fund_house_name

def fundKey (scheme_name : String) : String :=
  FUND_PREFIX ++ PREFIX_DELIMTER ++ scheme_name

/-! ### AMFINavCache write methods (nav_redis.py lines 115-142) -/

/-- `_add_scheme_type`: `SADD` only — note no autocomplete suggestion is
registered for the scheme-type namespace. -/
def add_scheme_type (s : Store) (scheme_type : String) (scheme_sub_types : List String) :
    Except StoreErr Store :=
  sadd s (stKey scheme_type) scheme_sub_types

/-- `_add_scheme_sub_type`: `SADD` then a suggestion in `scheme_sub_type_ac`. -/
def add_scheme_sub_type (s : Store) (scheme_type scheme_sub_type : String)
    (fund_house_names : List String) : Except StoreErr Store :=
  (sadd s (sstKey scheme_type scheme_sub_type) fund_house_names).map
    (fun s1 => sugadd s1 SCHEME_SUB_TYPE_AUTOCOMPLETER_KEY (sstKey scheme_type scheme_sub_type))

/-- `_add_fund_house_under_sub_type`: `SADD` then a suggestion in
`scheme_sub_type_fund_house_ac`. -/
def add_fund_house_under_sub_type (s : Store) (scheme_sub_type fund_house_name : String)
    (fund_scheme_names : List String) : Except StoreErr Store :=
  (sadd s (sstfhKey scheme_sub_type fund_house_name) fund_scheme_names).map
    (fun s1 => sugadd s1 SCHEME_SUB_TYPE_FUND_HOUSE_AUTOCOMPLETER_KEY
      (sstfhKey scheme_sub_type fund_house_name))

/-- `_add_fund_house`: `SADD` then a suggestion in `fund_house_ac`. -/
def add_fund_house (s : Store) (fund_house_name : String) (fund_scheme_names : List String) :
    Except StoreErr Store :=
  (sadd s (fundHouseKey fund_house_name) fund_scheme_names).map
    (fun s1 => sugadd s1 FUND_HOUSE_AUTOCOMPLETER_KEY (fundHouseKey fund_house_name))

/-- `_set_fund`: `SET` the serialized record, then a suggestion in
`fund_ac`; neither call can fail. -/
def set_fund (s : Store) (fund : Fund) : Store :=
  sugadd (redis_set s (fundKey fund.SchemeName) (serialize_fund fund))
    FUND_AUTOCOMPLETER_KEY (fundKey fund.SchemeName)

/-! ### AMFINavCache read methods (nav_redis.py lines 178-220) -/

def get_scalar (s : Store) (key : String) : Option String := redis_get s key

/-- `_get_set` returns `r.smembers(key)`: redis-py always returns a set
object here (empty for an absent key), never `None`. -/
def get_set (s : Store) (key : String) : List String := smembers s key

/-- `get_fund` (nav_redis.py lines 184-191). -/
def get_fund (s : Store) (fund_name : String) : Except CacheErr Fund :=
  let key_str := FUND_PREFIX ++ PREFIX_DELIMTER ++ fund_name
  match get_scalar s key_str with
  | none => Except.error (CacheErr.fundKeyNotFound fund_name)
  | some json_data => Except.ok (deserialize_fund json_data)

/-- `get_fund_house` (nav_redis.py lines 193-200).  The source guards
`if fund_list is None: raise FundHouseKeyNotFoundError(...)`, but
`smembers` never returns `None`, so the guard is dead and the fund list
(possibly empty) is always returned. -/
def get_fund_house (s : Store) (fund_house_name : String) : Except CacheErr (List String) :=
  let fund_list := get_set s (FUND_HOUSE_PREFIX ++ PREFIX_DELIMTER ++ fund_house_name)
  Except.ok fund_list

/-- `_get_prefix_keys`: `r.keys(f'{prefix}:*')` — every key of the store
whose name starts with `prefix` followed by the delimiter. -/
def get_prefix_keys (s : Store) (pre : String) : List String :=
  (allKeys s).filter (fun k => k.startsWith (pre ++ PREFIX_DELIMTER))

def get_fund_count (s : Store) : Nat := (get_prefix_keys s FUND_PREFIX).length

/-- `get_all_funds` (nav_redis.py lines 215-220): Python's `sorted` of
the prefix-stripped `FUND` keys; `List.insertionSort` with `≤` on
`String` produces the same ascending lexicographic result. -/
def get_all_funds (s : Store) : List String :=
  List.insertionSort (· ≤ ·)
    ((get_prefix_keys s FUND_PREFIX).map (fun item => replacePrefix FUND_PREFIX item))

/-! ### The rebuild (nav_redis.py lines 144-176)

`_async_update_mf_cache` walks the producer snapshot, stamps each fund,
and appends one coroutine per store operation to `redis_futures`; the
coroutine bodies contain no awaits, so `asyncio.gather` executes them in
list order.  `RedisOp` is a deferred operation and `runOps` is that
sequential execution. -/

abbrev Snapshot := List (String × List (String × List (String × List Fund)))

inductive RedisOp where
  | setFund (fund : Fund)
  | addFundHouseUnderSubType (scheme_sub_type fund_house_name : String)
      (fund_scheme_names : List String)
  | addFundHouse (fund_house_name : String) (fund_scheme_names : List String)
  | addSchemeSubType (scheme_type scheme_sub_type : String) (fund_house_names : List String)
  | addSchemeType (scheme_type : String) (scheme_sub_types : List String)
deriving DecidableEq, Repr

def execOp (s : Store) : RedisOp → Except StoreErr Store
  | RedisOp.setFund f => Except.ok (set_fund s f)
  | RedisOp.addFundHouseUnderSubType st fh fl => add_fund_house_under_sub_type s st fh fl
  | RedisOp.addFundHouse fh fl => add_fund_house s fh fl
  | RedisOp.addSchemeSubType t st hl => add_scheme_sub_type s t st hl
  | RedisOp.addSchemeType t stl => add_scheme_type s t stl

def runOps (s : Store) : List RedisOp → Except StoreErr Store
  | [] => Except.ok s
  | op :: rest =>
    match execOp s op with
    | Except.error e => Except.error e
    | Except.ok s1 => runOps s1 rest

/-- nav_redis.py lines 158-160: the three containing identifiers are
stamped onto the fund record before it is written. -/
def stamp (f : Fund) (t st fh : String) : Fund :=
  { f with SchemeType := t, SchemeSubType := st, SchemeFundHouse := fh }

/-- Operations appended while iterating one fund house
(nav_redis.py lines 156-165). -/
def houseOps (t st fh : String) (funds : List Fund) : List RedisOp :=
  funds.map (fun f => RedisOp.setFund (stamp f t st fh))
    ++ [RedisOp.addFundHouseUnderSubType st fh (funds.map Fund.SchemeName),
        RedisOp.addFundHouse fh (funds.map Fund.SchemeName)]

/-- Operations appended while iterating one scheme sub-type
(nav_redis.py lines 153-168). -/
def subTypeOps (t st : String) (houses : List (String × List Fund)) : List RedisOp :=
  houses.flatMap (fun p => houseOps t st p.1 p.2)
    ++ [RedisOp.addSchemeSubType t st (houses.map Prod.fst)]

/-- Operations appended while iterating one scheme type
(nav_redis.py lines 151-171). -/
def typeOps (t : String) (subTypes : List (String × List (String × List Fund))) : List RedisOp :=
  subTypes.flatMap (fun p => subTypeOps t p.1 p.2)
    ++ [RedisOp.addSchemeType t (subTypes.map Prod.fst)]

/-- The full `redis_futures` list built by `_async_update_mf_cache`. -/
def redis_futures (snap : Snapshot) : List RedisOp :=
  snap.flatMap (fun p => typeOps p.1 p.2)

/-- `update_mf_cache` / `_async_update_mf_cache`: build the operation
list from the producer snapshot and execute it.  There is no in-progress
check of any kind before running. -/
def update_mf_cache (snap : Snapshot) (s : Store) : Except StoreErr Store :=
  runOps s (redis_futures snap)

/-- All `(scheme type, scheme sub-type, fund house, fund)` quadruples of
a snapshot, in traversal order. -/
def quads (snap : Snapshot) : List (String × String × String × Fund) :=
  snap.flatMap fun p =>
    p.2.flatMap fun q =>
      q.2.flatMap fun r =>
        r.2.map fun f => (p.1, q.1, r.1, f)

/-- The spec's data-model invariant that `SchemeName` is the primary key:
a scheme name determines its quadruple. -/
def PrimaryKey (snap : Snapshot) : Prop :=
  ∀ q ∈ quads snap, ∀ q' ∈ quads snap,
    (q.2.2.2).SchemeName = (q'.2.2.2).SchemeName → q = q'

/-- Every hierarchy level of the snapshot is nonempty — exactly the
snapshots on which no `SADD` is issued with zero members, i.e. on which
a rebuild can complete. -/
def WellFormed (snap : Snapshot) : Prop :=
  ∀ p ∈ snap, p.2 ≠ [] ∧ ∀ q ∈ p.2, q.2 ≠ [] ∧ ∀ r ∈ q.2, r.2 ≠ []

/-! ### The search client (search.py) -/

inductive SearchErr where
  | invalidQueryType (q_type : String)
deriving DecidableEq, Repr

/-- A search result element: the Python key-transforms return either a
plain string (fund, fund house) or the list produced by a delimiter
split (the two composite namespaces). -/
inductive SearchHit where
  | single (s : String)
  | multi (parts : List String)
deriving DecidableEq, Repr

/-- search.py line 26. -/
def fundTransform (item : String) : SearchHit :=
  SearchHit.single (replacePrefix FUND_PREFIX item)

/-- search.py line 31. -/
def fundHouseTransform (item : String) : SearchHit :=
  SearchHit.single (replacePrefix FUND_HOUSE_PREFIX item)

/-- search.py line 36. -/
def schemeSubTypeTransform (item : String) : SearchHit :=
  SearchHit.multi (pySplit (replacePrefix SCHEME_SUB_TYPE_PREFIX item))

/-- search.py line 41. -/
def schemeSubTypeFundHouseTransform (item : String) : SearchHit :=
  SearchHit.multi (pySplit (replacePrefix SCHEME_SUB_TYPE_FUND_HOUSE_PREFIX item))

structure ACType where
  pre : String
  ac_key : String
  key_transform : String → SearchHit

/-- The `AC_TYPES` dispatch dictionary (search.py lines 22-43). -/
def AC_TYPES (query_type : String) : Option ACType :=
  if query_type = "fund" then
    some ⟨FUND_PREFIX, FUND_AUTOCOMPLETER_KEY, fundTransform⟩
  else if query_type = "fund_house" then
    some ⟨FUND_HOUSE_PREFIX, FUND_HOUSE_AUTOCOMPLETER_KEY, fundHouseTransform⟩
  else if query_type = "scheme_sub_type" then
    some ⟨SCHEME_SUB_TYPE_PREFIX, SCHEME_SUB_TYPE_AUTOCOMPLETER_KEY, schemeSubTypeTransform⟩
  else if query_type = "scheme_sub_type_fund_house" then
    some ⟨SCHEME_SUB_TYPE_FUND_HOUSE_PREFIX, SCHEME_SUB_TYPE_FUND_HOUSE_AUTOCOMPLETER_KEY,
      schemeSubTypeFundHouseTransform⟩
  else none

/-- `_query` (search.py lines 54-56). -/
def mkQuery (pre query : String) : String := pre ++ PREFIX_DELIMTER ++ query

/-- `search` (search.py lines 58-80).  The RediSearch suggestion lookup
(`AutoCompleter.get_suggestions`, fuzzy matching enabled) is the external
store's ranking engine; it is passed in as `backend`, mapping an
autocompleter key and the prefixed query to the ranked hit list. -/
def search (backend : String → String → List String) (query_type query : String) :
    Except SearchErr (List SearchHit) :=
  match AC_TYPES query_type with
  | none => Except.error (SearchErr.invalidQueryType query_type)
  | some query_provider =>
    let query_with_prefix := mkQuery query_provider.pre query
    let results := backend query_provider.ac_key query_with_prefix
    Except.ok (results.map query_provider.key_transform)

/-! ### The HTTP `GET /api/v1/fund` boundary (app.py lines 52-70) -/

def PAGE_COUNT_LIMIT : Nat := 1000

inductive HttpErr where
  /-- FastAPI's 422 on violating the declared `Query(10, le=1000)` bound. -/
  | validationError
  /-- The handler's blanket `except Exception` reply
  (`400, 'Error fetching funds.'`). -/
  | fetchError
deriving DecidableEq, Repr

structure FundPage where
  pg : Nat
  items : List String
  last : Nat
deriving DecidableEq, Repr

/-- `fetch_all_funds`: validation enforces only `count ≤ 1000` (no lower
bound); `total_pages = int(len(fund_keys) / count)` divides by zero when
`count = 0`, which the blanket `except` turns into the generic error;
the page slice is `fund_keys[pg*count : pg*count+count]`. -/
def fetch_all_funds (s : Store) (pg count : Nat) : Except HttpErr FundPage :=
  if PAGE_COUNT_LIMIT < count then Except.error HttpErr.validationError
  else
    let fund_keys := get_all_funds s
    if count = 0 then Except.error HttpErr.fetchError
    else
      Except.ok { pg := pg,
                  items := (fund_keys.drop (pg * count)).take count,
                  last := fund_keys.length / count }

/-! ## Association-list and store lemmas -/

theorem alookup_ainsert_self {α : Type} (l : List (String × α)) (k : String) (v : α) :
    alookup (ainsert l k v) k = some v := by
  induction l with
  | nil => simp [ainsert, alookup]
  | cons hd tl ih =>
    obtain ⟨k', v'⟩ := hd
    by_cases h : k' = k
    · simp [ainsert, h, alookup]
    · simp [ainsert, h, alookup, ih]

theorem alookup_ainsert_ne {α : Type} (l : List (String × α)) (k k' : String) (v : α)
    (h : k' ≠ k) : alookup (ainsert l k v) k' = alookup l k' := by
  have hk : k ≠ k' := Ne.symm h
  induction l with
  | nil => simp [ainsert, alookup, hk]
  | cons hd tl ih =>
    obtain ⟨k₀, v₀⟩ := hd
    by_cases h₀ : k₀ = k
    · subst h₀
      simp [ainsert, alookup, hk]
    · simp [ainsert, h₀, alookup, ih]

theorem mem_listUnion (x : String) (old new : List String) :
    x ∈ listUnion old new ↔ x ∈ old ∨ x ∈ new := by
  simp only [listUnion, List.mem_append, List.mem_filter, Bool.not_eq_true', decide_eq_false_iff_not]
  constructor
  · rintro (h | ⟨h, _⟩)
    · exact Or.inl h
    · exact Or.inr h
  · rintro (h | h)
    · exact Or.inl h
    · by_cases hx : x ∈ old
      · exact Or.inl hx
      · exact Or.inr ⟨h, hx⟩

theorem smembers_store_sadd_eq (s : Store) (k : String) (ms : List String) :
    smembers (store_sadd s k ms) k = listUnion (smembers s k) ms := by
  show (alookup (ainsert s.sets k (listUnion (smembers s k) ms)) k).getD [] = _
  rw [alookup_ainsert_self]
  rfl

theorem smembers_store_sadd_self (s : Store) (k : String) (ms : List String) (x : String) :
    x ∈ smembers (store_sadd s k ms) k ↔ x ∈ smembers s k ∨ x ∈ ms := by
  rw [smembers_store_sadd_eq]
  exact mem_listUnion x (smembers s k) ms

theorem smembers_store_sadd_ne (s : Store) (k k' : String) (ms : List String) (h : k' ≠ k) :
    smembers (store_sadd s k ms) k' = smembers s k' := by
  simp [smembers, store_sadd, alookup_ainsert_ne _ _ _ _ h]

theorem smembers_sugadd (s : Store) (a t k : String) :
    smembers (sugadd s a t) k = smembers s k := rfl

theorem smembers_redis_set (s : Store) (k v k' : String) :
    smembers (redis_set s k v) k' = smembers s k' := rfl

theorem redis_get_redis_set_self (s : Store) (k v : String) :
    redis_get (redis_set s k v) k = some v := by
  simp [redis_get, redis_set, alookup_ainsert_self]

theorem redis_get_redis_set_ne (s : Store) (k v k' : String) (h : k' ≠ k) :
    redis_get (redis_set s k v) k' = redis_get s k' := by
  simp [redis_get, redis_set, alookup_ainsert_ne _ _ _ _ h]

theorem redis_get_store_sadd (s : Store) (k : String) (ms : List String) (k' : String) :
    redis_get (store_sadd s k ms) k' = redis_get s k' := rfl

theorem redis_get_sugadd (s : Store) (a t k : String) :
    redis_get (sugadd s a t) k = redis_get s k := rfl

theorem suggestions_sugadd_eq (s : Store) (a t : String) :
    suggestions (sugadd s a t) a
      = if t ∈ suggestions s a then suggestions s a else suggestions s a ++ [t] := by
  show (alookup (ainsert s.acs a _) a).getD [] = _
  rw [alookup_ainsert_self]
  rfl

theorem suggestions_sugadd_mem (s : Store) (a t : String) :
    t ∈ suggestions (sugadd s a t) a := by
  rw [suggestions_sugadd_eq]
  by_cases h : t ∈ suggestions s a
  · rw [if_pos h]; exact h
  · rw [if_neg h]; exact List.mem_append.mpr (Or.inr (by simp))

theorem suggestions_sugadd_old (s : Store) (a t x : String) (h : x ∈ suggestions s a) :
    x ∈ suggestions (sugadd s a t) a := by
  rw [suggestions_sugadd_eq]
  by_cases ht : t ∈ suggestions s a
  · rw [if_pos ht]; exact h
  · rw [if_neg ht]; exact List.mem_append.mpr (Or.inl h)

theorem suggestions_sugadd_ne (s : Store) (a t a' : String) (h : a' ≠ a) :
    suggestions (sugadd s a t) a' = suggestions s a' := by
  simp [suggestions, sugadd, alookup_ainsert_ne _ _ _ _ h]

theorem suggestions_store_sadd (s : Store) (k : String) (ms : List String) (a : String) :
    suggestions (store_sadd s k ms) a = suggestions s a := rfl

theorem suggestions_redis_set (s : Store) (k v a : String) :
    suggestions (redis_set s k v) a = suggestions s a := rfl

/-! ## Serialization round-trip -/

theorem decodeLen_encodeLen (n : Nat) (tail : List Char) :
    decodeLen (encodeLen n ++ '0' :: tail) = (n, '0' :: tail) := by
  induction n with
  | zero => simp [encodeLen, decodeLen]
  | succ m ih => simp [encodeLen, decodeLen, ih]

theorem decodeField_encodeField (s : String) (tail : List Char) :
    decodeField (encodeField s ++ tail) = (s, tail) := by
  have h1 : encodeField s ++ tail = encodeLen s.length ++ '0' :: (s.data ++ tail) := by
    simp [encodeField]
  rw [decodeField.eq_def, h1, decodeLen_encodeLen]
  show (String.mk ((s.data ++ tail).take s.length), (s.data ++ tail).drop s.length) = (s, tail)
  have hlen : s.length = s.data.length := rfl
  rw [hlen, List.take_left, List.drop_left]

theorem data_mk (l : List Char) : (String.mk l).data = l := rfl

theorem decodeFields_encodeFields (ss : List String) :
    decodeFields ss.length (encodeFields ss) = ss := by
  induction ss with
  | nil => rfl
  | cons s rest ih =>
    rw [List.length_cons, encodeFields, decodeFields]
    rw [decodeField_encodeField]
    simp only [ih]

theorem deserialize_serialize (f : Fund) : deserialize_fund (serialize_fund f) = f := by
  have h9 : decodeFields 9 (encodeFields [f.SchemeCode, f.SchemeName, f.ISINDivPayoutGrowth,
      f.ISINDivReinvestment, f.NAV, f.Date, f.SchemeType, f.SchemeSubType, f.SchemeFundHouse])
      = [f.SchemeCode, f.SchemeName, f.ISINDivPayoutGrowth, f.ISINDivReinvestment, f.NAV,
        f.Date, f.SchemeType, f.SchemeSubType, f.SchemeFundHouse] := by
    simpa using decodeFields_encodeFields [f.SchemeCode, f.SchemeName, f.ISINDivPayoutGrowth,
      f.ISINDivReinvestment, f.NAV, f.Date, f.SchemeType, f.SchemeSubType, f.SchemeFundHouse]
  simp only [deserialize_fund, serialize_fund, data_mk, h9]

/-- Claim C6: writing a fund record with `writeFund` (`_set_fund`) and
reading it back with `getFund` on the same `SchemeName` returns the
record field-for-field. -/
theorem writeFund_getFund_roundtrip (s : Store) (f : Fund) :
    get_fund (set_fund s f) f.SchemeName = Except.ok f := by
  have hkey : fundKey f.SchemeName = FUND_PREFIX ++ PREFIX_DELIMTER ++ f.SchemeName := rfl
  simp only [get_fund, get_scalar, set_fund, redis_get_sugadd, ← hkey,
    redis_get_redis_set_self, deserialize_serialize]

/-! ## `replace_prefix` / `split` lemmas -/

theorem mk_data (s : String) : String.mk s.data = s := rfl

theorem isPrefixOf_append (pat r : List Char) : pat.isPrefixOf (pat ++ r) = true := by
  induction pat with
  | nil => simp [List.isPrefixOf]
  | cons c ps ih => simp [List.isPrefixOf, ih]

theorem removeAllAux_no_occ (pat : List Char) (fuel : Nat) (s : List Char)
    (hs : s.length ≤ fuel) (h : hasInfix pat s = false) : removeAllAux pat fuel s = s := by
  induction fuel generalizing s with
  | zero =>
    cases s with
    | nil => rfl
    | cons c rest => simp at hs
  | succ m ih =>
    cases s with
    | nil => rfl
    | cons c rest =>
      have hor : (pat.isPrefixOf (c :: rest) || hasInfix pat rest) = false := h
      have hpre : pat.isPrefixOf (c :: rest) = false := by
        cases hp : pat.isPrefixOf (c :: rest) with
        | false => rfl
        | true => rw [hp] at hor; simp at hor
      have hrest : hasInfix pat rest = false := by
        cases hr : hasInfix pat rest with
        | false => rfl
        | true => rw [hr] at hor; simp at hor
      have hlen : rest.length ≤ m := by
        simp only [List.length_cons] at hs
        omega
      simp only [removeAllAux, hpre, Bool.false_and, if_neg]
      rw [ih rest hlen hrest]
      simp

theorem removeAll_no_occ (pat s : List Char) (h : hasInfix pat s = false) :
    removeAll pat s = s :=
  removeAllAux_no_occ pat s.length s le_rfl h

theorem removeAll_strip (pat r : List Char) (hpat : pat ≠ [])
    (h : hasInfix pat r = false) : removeAll pat (pat ++ r) = r := by
  cases pat with
  | nil => exact absurd rfl hpat
  | cons c ps =>
    have hc : (c :: ps).isPrefixOf (c :: (ps ++ r)) = true := by
      rw [← List.cons_append]
      exact isPrefixOf_append _ _
    have hdrop : (c :: (ps ++ r)).drop (c :: ps).length = r := by
      rw [List.length_cons, List.drop_succ_cons, List.drop_left]
    unfold removeAll
    rw [List.cons_append, List.length_cons]
    simp only [removeAllAux, hc, List.isEmpty_cons, Bool.not_false, Bool.and_true, if_true]
    rw [hdrop]
    exact removeAllAux_no_occ _ _ _ (by rw [List.length_append]; omega) h

theorem replacePrefix_no_occ (pre k : String)
    (h : hasInfix (pre ++ PREFIX_DELIMTER).data k.data = false) :
    replacePrefix pre k = k := by
  unfold replacePrefix
  rw [removeAll_no_occ _ _ h, mk_data]

theorem delim_data_ne_nil (pre : String) : (pre ++ PREFIX_DELIMTER).data ≠ [] := by
  intro hh
  have := congrArg List.length hh
  simp [String.data_append, PREFIX_DELIMTER] at this

theorem replacePrefix_strip (pre r : String)
    (h : hasInfix (pre ++ PREFIX_DELIMTER).data r.data = false) :
    replacePrefix pre (pre ++ PREFIX_DELIMTER ++ r) = r := by
  unfold replacePrefix
  have hdata : (pre ++ PREFIX_DELIMTER ++ r).data
      = (pre ++ PREFIX_DELIMTER).data ++ r.data := String.data_append _ _
  rw [hdata, removeAll_strip _ _ (delim_data_ne_nil pre) h, mk_data]

theorem splitOnDelim_no_delim (d : Char) (s : List Char) (h : d ∉ s) :
    splitOnDelim d s = [s] := by
  induction s with
  | nil => rfl
  | cons c rest ih =>
    have hc : ¬ c = d := fun hh => h (hh ▸ List.mem_cons_self c rest)
    have hr : d ∉ rest := fun hm => h (List.mem_cons_of_mem c hm)
    rw [splitOnDelim, ih hr]
    simp [hc]

theorem splitOnDelim_pair (d : Char) (a b : List Char) (ha : d ∉ a) (hb : d ∉ b) :
    splitOnDelim d (a ++ d :: b) = [a, b] := by
  induction a with
  | nil =>
    rw [List.nil_append, splitOnDelim, splitOnDelim_no_delim d b hb]
    simp
  | cons c as ih =>
    have hc : ¬ c = d := fun hh => ha (hh ▸ List.mem_cons_self c as)
    have ha' : d ∉ as := fun hm => ha (List.mem_cons_of_mem c hm)
    rw [List.cons_append, splitOnDelim, ih ha']
    simp [hc]

theorem pySplit_pair (a b : String) (ha : ':' ∉ a.data) (hb : ':' ∉ b.data) :
    pySplit (a ++ PREFIX_DELIMTER ++ b) = [a, b] := by
  unfold pySplit
  have hdata : (a ++ PREFIX_DELIMTER ++ b).data = a.data ++ ':' :: b.data := by
    simp [String.data_append, PREFIX_DELIMTER]
  rw [hdata, splitOnDelim_pair ':' a.data b.data ha hb]
  simp [mk_data]

/-! ## Claim C2 -/

/-- Claim C2 counterexample: `replace_prefix` does not parse the leading
prefix and never signals a malformed key.  On the key `"HOUSE"`, which
does not start with `"FUND:"`, it returns the key itself instead of
failing; and on `"FUND:A FUND:B"` it also deletes the embedded,
non-leading occurrence of `"FUND:"`, so the remainder is not returned
unmodified. -/
theorem replace_prefix_claim_cex :
    replacePrefix FUND_PREFIX "HOUSE" = "HOUSE" ∧
    replacePrefix FUND_PREFIX "FUND:A FUND:B" = "A B" := by
  constructor <;> rfl

/-- Claim C2 (amended): `replace_prefix` deletes every occurrence of
`prefix+delimiter` from the key and is total.  When the key is
`prefix+delimiter+remainder` and the remainder contains no further
occurrence, exactly the remainder is returned; a key containing no
occurrence at all (in particular one that does not start with
`prefix+delimiter`) is returned unchanged; no `MalformedKey` failure
exists. -/
theorem replace_prefix_semantics (pre r k : String)
    (h1 : hasInfix (pre ++ PREFIX_DELIMTER).data r.data = false)
    (h2 : hasInfix (pre ++ PREFIX_DELIMTER).data k.data = false) :
    replacePrefix pre (pre ++ PREFIX_DELIMTER ++ r) = r ∧ replacePrefix pre k = k :=
  ⟨replacePrefix_strip pre r h1, replacePrefix_no_occ pre k h2⟩

/-- Witness for `replace_prefix_semantics` at concrete inputs. -/
theorem replace_prefix_semantics_witness :
    replacePrefix FUND_PREFIX (FUND_PREFIX ++ PREFIX_DELIMTER ++ "ABC Fund") = "ABC Fund" ∧
    replacePrefix FUND_PREFIX "SCHEME_TYPE:Open" = "SCHEME_TYPE:Open" :=
  replace_prefix_semantics FUND_PREFIX "ABC Fund" "SCHEME_TYPE:Open" (by decide) (by decide)

/-! ## Claim C5 -/

/-- Claim C5: the per-namespace key-transform maps a hit of the two
composite namespaces to the 2-tuple of identifiers obtained by stripping
the namespace prefix and splitting the remainder on the delimiter, and a
hit of the fund / fund-house namespaces to the single prefix-stripped
identifier; `search` returns exactly the transform of every backend
hit.  The hypotheses say the identifiers are delimiter-free and the
remainder carries no further occurrence of the prefix pattern (the
spec's key-shape invariant). -/
theorem search_hit_transforms (backend : String → String → List String) (a b c d n m q : String)
    (h1 : hasInfix (SCHEME_SUB_TYPE_PREFIX ++ PREFIX_DELIMTER).data
      (a ++ PREFIX_DELIMTER ++ b).data = false)
    (h2 : ':' ∉ a.data) (h3 : ':' ∉ b.data)
    (h4 : hasInfix (SCHEME_SUB_TYPE_FUND_HOUSE_PREFIX ++ PREFIX_DELIMTER).data
      (c ++ PREFIX_DELIMTER ++ d).data = false)
    (h5 : ':' ∉ c.data) (h6 : ':' ∉ d.data)
    (h7 : hasInfix (FUND_PREFIX ++ PREFIX_DELIMTER).data n.data = false)
    (h8 : hasInfix (FUND_HOUSE_PREFIX ++ PREFIX_DELIMTER).data m.data = false) :
    schemeSubTypeTransform (sstKey a b) = SearchHit.multi [a, b] ∧
    schemeSubTypeFundHouseTransform (sstfhKey c d) = SearchHit.multi [c, d] ∧
    fundTransform (fundKey n) = SearchHit.single n ∧
    fundHouseTransform (fundHouseKey m) = SearchHit.single m ∧
    search backend "scheme_sub_type" q = Except.ok
      ((backend SCHEME_SUB_TYPE_AUTOCOMPLETER_KEY
        (mkQuery SCHEME_SUB_TYPE_PREFIX q)).map schemeSubTypeTransform) ∧
    search backend "scheme_sub_type_fund_house" q = Except.ok
      ((backend SCHEME_SUB_TYPE_FUND_HOUSE_AUTOCOMPLETER_KEY
        (mkQuery SCHEME_SUB_TYPE_FUND_HOUSE_PREFIX q)).map schemeSubTypeFundHouseTransform) ∧
    search backend "fund" q = Except.ok
      ((backend FUND_AUTOCOMPLETER_KEY (mkQuery FUND_PREFIX q)).map fundTransform) ∧
    search backend "fund_house" q = Except.ok
      ((backend FUND_HOUSE_AUTOCOMPLETER_KEY (mkQuery FUND_HOUSE_PREFIX q)).map
        fundHouseTransform) := by
  have hsst : sstKey a b
      = SCHEME_SUB_TYPE_PREFIX ++ PREFIX_DELIMTER ++ (a ++ PREFIX_DELIMTER ++ b) := by
    simp [sstKey, String.append_assoc]
  have hsstfh : sstfhKey c d
      = SCHEME_SUB_TYPE_FUND_HOUSE_PREFIX ++ PREFIX_DELIMTER ++ (c ++ PREFIX_DELIMTER ++ d) := by
    simp [sstfhKey, String.append_assoc]
  refine ⟨?_, ?_, ?_, ?_, rfl, rfl, rfl, rfl⟩
  · rw [schemeSubTypeTransform, hsst, replacePrefix_strip _ _ h1, pySplit_pair a b h2 h3]
  · rw [schemeSubTypeFundHouseTransform, hsstfh, replacePrefix_strip _ _ h4,
      pySplit_pair c d h5 h6]
  · rw [fundTransform, fundKey, replacePrefix_strip _ _ h7]
  · rw [fundHouseTransform, fundHouseKey, replacePrefix_strip _ _ h8]

/-- Witness for `search_hit_transforms` at concrete inputs. -/
theorem search_hit_transforms_witness :
    schemeSubTypeTransform (sstKey "Open Ended" "Equity")
      = SearchHit.multi ["Open Ended", "Equity"] ∧
    schemeSubTypeFundHouseTransform (sstfhKey "Equity" "ABC Mutual Fund")
      = SearchHit.multi ["Equity", "ABC Mutual Fund"] ∧
    fundTransform (fundKey "ABC Equity Fund - Growth")
      = SearchHit.single "ABC Equity Fund - Growth" ∧
    fundHouseTransform (fundHouseKey "ABC Mutual Fund")
      = SearchHit.single "ABC Mutual Fund" ∧
    search (fun _ _ => []) "scheme_sub_type" "Op" = Except.ok
      (((fun (_ _ : String) => ([] : List String)) SCHEME_SUB_TYPE_AUTOCOMPLETER_KEY
        (mkQuery SCHEME_SUB_TYPE_PREFIX "Op")).map schemeSubTypeTransform) ∧
    search (fun _ _ => []) "scheme_sub_type_fund_house" "Op" = Except.ok
      (((fun (_ _ : String) => ([] : List String)) SCHEME_SUB_TYPE_FUND_HOUSE_AUTOCOMPLETER_KEY
        (mkQuery SCHEME_SUB_TYPE_FUND_HOUSE_PREFIX "Op")).map schemeSubTypeFundHouseTransform) ∧
    search (fun _ _ => []) "fund" "Op" = Except.ok
      (((fun (_ _ : String) => ([] : List String)) FUND_AUTOCOMPLETER_KEY
        (mkQuery FUND_PREFIX "Op")).map fundTransform) ∧
    search (fun _ _ => []) "fund_house" "Op" = Except.ok
      (((fun (_ _ : String) => ([] : List String)) FUND_HOUSE_AUTOCOMPLETER_KEY
        (mkQuery FUND_HOUSE_PREFIX "Op")).map fundHouseTransform) :=
  search_hit_transforms (fun _ _ => []) "Open Ended" "Equity" "Equity" "ABC Mutual Fund"
    "ABC Equity Fund - Growth" "ABC Mutual Fund" "Op"
    (by decide) (by decide) (by decide) (by decide) (by decide) (by decide)
    (by decide) (by decide)

/-! ## Claim C8 -/

/-- Claim C8: `search` on a query type that is not one of the four
registered namespaces fails with `InvalidQueryType` regardless of the
query text; on a registered namespace a query with no backend matches
yields the empty result list, not an error. -/
theorem search_error_handling (backend : String → String → List String)
    (query_type query : String) :
    (query_type ≠ "fund" → query_type ≠ "fund_house" → query_type ≠ "scheme_sub_type" →
      query_type ≠ "scheme_sub_type_fund_house" →
      search backend query_type query = Except.error (SearchErr.invalidQueryType query_type)) ∧
    (∀ provider, AC_TYPES query_type = some provider →
      backend provider.ac_key (mkQuery provider.pre query) = [] →
      search backend query_type query = Except.ok []) := by
  constructor
  · intro hf hfh hsst hsstfh
    unfold search AC_TYPES
    rw [if_neg hf, if_neg hfh, if_neg hsst, if_neg hsstfh]
  · intro provider hp hb
    unfold search
    rw [hp]
    simp only [hb, List.map_nil]

/-- Witness for `search_error_handling` at concrete inputs. -/
theorem search_error_handling_witness :
    search (fun _ _ => []) "bogus" "" = Except.error (SearchErr.invalidQueryType "bogus") ∧
    search (fun _ _ => []) "fund" "ABC" = Except.ok [] :=
  ⟨(search_error_handling (fun _ _ => []) "bogus" "").1
      (by decide) (by decide) (by decide) (by decide),
    (search_error_handling (fun _ _ => []) "fund" "ABC").2
      ⟨FUND_PREFIX, FUND_AUTOCOMPLETER_KEY, fundTransform⟩ rfl rfl⟩

/-! ## Claim C3 -/

/-- Claim C3 evaluated at the failing input: `get_fund` on a name with
no stored value does fail with the fund-not-found error, but
`get_fund_house` on an absent fund house returns the empty list instead
of failing — `r.smembers` yields an empty set, never `None`, so the
`if fund_list is None` guard in the source is unreachable (and the
`FundHouseKeyNotFoundError` constructor itself reads an undefined
variable and could not even be built). -/
theorem getFund_notFound_getFundHouse_silent :
    get_fund emptyStore "ABC Equity Fund - Growth"
      = Except.error (CacheErr.fundKeyNotFound "ABC Equity Fund - Growth") ∧
    get_fund_house emptyStore "ABC Mutual Fund" = Except.ok [] := by
  constructor <;> rfl

/-! ## Claim C10 -/

/-- Claim C10: `pageSize = 0` is not rejected by the declared validation
(which only enforces `count ≤ 1000`); the `lastPage` computation then
divides by zero and the handler's blanket `except` returns the generic
fetch error instead of a page. -/
theorem listFunds_zero_count (s : Store) (pg : Nat) :
    fetch_all_funds s pg 0 = Except.error HttpErr.fetchError := rfl

/-! ## Claim C7 -/

theorem get_all_funds_sorted (s : Store) : List.Sorted (· ≤ ·) (get_all_funds s) :=
  List.sorted_insertionSort _ _

/-- Claim C7: for every accepted page request (`0 < pageSize ≤ 1000`),
`listFunds` returns a page whose items are in ascending lexicographic
order with `lastPage = floor(totalFunds / pageSize)`, and every request
with `pageSize > 1000` is rejected at the validation boundary. -/
theorem listFunds_pagination (s : Store) (pg count : Nat) :
    (0 < count → count ≤ PAGE_COUNT_LIMIT →
      ∃ p : FundPage, fetch_all_funds s pg count = Except.ok p ∧
        List.Sorted (· ≤ ·) p.items ∧ p.last = (get_all_funds s).length / count) ∧
    (PAGE_COUNT_LIMIT < count →
      fetch_all_funds s pg count = Except.error HttpErr.validationError) := by
  constructor
  · intro h0 h1
    refine ⟨⟨pg, ((get_all_funds s).drop (pg * count)).take count,
      (get_all_funds s).length / count⟩, ?_, ?_, rfl⟩
    · unfold fetch_all_funds
      rw [if_neg (by omega), if_neg (by omega)]
    · have hsub : (((get_all_funds s).drop (pg * count)).take count).Sublist
          (get_all_funds s) :=
        (List.take_sublist _ _).trans (List.drop_sublist _ _)
      exact List.Pairwise.sublist hsub (get_all_funds_sorted s)
  · intro h
    unfold fetch_all_funds
    rw [if_pos h]

/-- Witness for `listFunds_pagination`: a concrete two-fund store,
`pageSize = 1000` accepted, `pageSize = 1001` rejected. -/
theorem listFunds_pagination_witness :
    (∃ p : FundPage,
      fetch_all_funds (set_fund (set_fund emptyStore
          ⟨"B2", "B fund", "ib1", "ib2", "11.0", "01-01-2020", "", "", ""⟩)
          ⟨"A1", "A fund", "ia1", "ia2", "10.0", "01-01-2020", "", "", ""⟩) 0 1000
        = Except.ok p ∧
      List.Sorted (· ≤ ·) p.items ∧
      p.last = (get_all_funds (set_fund (set_fund emptyStore
          ⟨"B2", "B fund", "ib1", "ib2", "11.0", "01-01-2020", "", "", ""⟩)
          ⟨"A1", "A fund", "ia1", "ia2", "10.0", "01-01-2020", "", "", ""⟩)).length / 1000) ∧
    fetch_all_funds (set_fund (set_fund emptyStore
        ⟨"B2", "B fund", "ib1", "ib2", "11.0", "01-01-2020", "", "", ""⟩)
        ⟨"A1", "A fund", "ia1", "ia2", "10.0", "01-01-2020", "", "", ""⟩) 0 1001
      = Except.error HttpErr.validationError :=
  ⟨(listFunds_pagination _ 0 1000).1 (by decide) (by decide),
    (listFunds_pagination _ 0 1001).2 (by decide)⟩

/-! ## Rebuild lemmas -/

/-- The `SADD` (key, members) a deferred operation performs, if any. -/
def opAdds : RedisOp → Option (String × List String)
  | RedisOp.setFund _ => none
  | RedisOp.addFundHouseUnderSubType st fh fl => some (sstfhKey st fh, fl)
  | RedisOp.addFundHouse fh fl => some (fundHouseKey fh, fl)
  | RedisOp.addSchemeSubType t st hl => some (sstKey t st, hl)
  | RedisOp.addSchemeType t stl => some (stKey t, stl)

theorem sadd_ok {s s' : Store} {k : String} {ms : List String}
    (h : sadd s k ms = Except.ok s') : s' = store_sadd s k ms := by
  unfold sadd at h
  by_cases hm : ms.isEmpty
  · rw [if_pos hm] at h; exact absurd h (by simp)
  · rw [if_neg hm] at h; injection h with h'; exact h'.symm

theorem sadd_map_ok {g : Store → Store} {s s' : Store} {k : String} {ms : List String}
    (h : (sadd s k ms).map g = Except.ok s') : s' = g (store_sadd s k ms) := by
  unfold sadd at h
  by_cases hm : ms.isEmpty
  · rw [if_pos hm] at h; exact absurd h (by simp [Except.map])
  · rw [if_neg hm] at h
    simp only [Except.map] at h
    injection h with h'
    exact h'.symm

theorem set_fund_smembers (s : Store) (f : Fund) (k : String) :
    smembers (set_fund s f) k = smembers s k := rfl

theorem execOp_ok_sets_mono {s s' : Store} {op : RedisOp} (h : execOp s op = Except.ok s')
    (k x : String) (hx : x ∈ smembers s k) : x ∈ smembers s' k := by
  cases op with
  | setFund f =>
    unfold execOp at h
    injection h with h'
    rw [← h', set_fund_smembers]
    exact hx
  | addFundHouseUnderSubType st fh fl =>
    rw [sadd_map_ok h, smembers_sugadd]
    by_cases hk : k = sstfhKey st fh
    · subst hk; exact (smembers_store_sadd_self _ _ _ _).mpr (Or.inl hx)
    · rw [smembers_store_sadd_ne _ _ _ _ hk]; exact hx
  | addFundHouse fh fl =>
    rw [sadd_map_ok h, smembers_sugadd]
    by_cases hk : k = fundHouseKey fh
    · subst hk; exact (smembers_store_sadd_self _ _ _ _).mpr (Or.inl hx)
    · rw [smembers_store_sadd_ne _ _ _ _ hk]; exact hx
  | addSchemeSubType t st hl =>
    rw [sadd_map_ok h, smembers_sugadd]
    by_cases hk : k = sstKey t st
    · subst hk; exact (smembers_store_sadd_self _ _ _ _).mpr (Or.inl hx)
    · rw [smembers_store_sadd_ne _ _ _ _ hk]; exact hx
  | addSchemeType t stl =>
    rw [sadd_ok h]
    by_cases hk : k = stKey t
    · subst hk; exact (smembers_store_sadd_self _ _ _ _).mpr (Or.inl hx)
    · rw [smembers_store_sadd_ne _ _ _ _ hk]; exact hx

theorem execOp_ok_adds {s s' : Store} {op : RedisOp} {k : String} {ms : List String}
    (h : execOp s op = Except.ok s') (ha : opAdds op = some (k, ms)) {x : String}
    (hx : x ∈ ms) : x ∈ smembers s' k := by
  cases op with
  | setFund f => exact absurd ha (by simp [opAdds])
  | addFundHouseUnderSubType st fh fl =>
    obtain ⟨rfl, rfl⟩ : sstfhKey st fh = k ∧ fl = ms := by
      simpa [opAdds] using ha
    rw [sadd_map_ok h, smembers_sugadd]
    exact (smembers_store_sadd_self _ _ _ _).mpr (Or.inr hx)
  | addFundHouse fh fl =>
    obtain ⟨rfl, rfl⟩ : fundHouseKey fh = k ∧ fl = ms := by
      simpa [opAdds] using ha
    rw [sadd_map_ok h, smembers_sugadd]
    exact (smembers_store_sadd_self _ _ _ _).mpr (Or.inr hx)
  | addSchemeSubType t st hl =>
    obtain ⟨rfl, rfl⟩ : sstKey t st = k ∧ hl = ms := by
      simpa [opAdds] using ha
    rw [sadd_map_ok h, smembers_sugadd]
    exact (smembers_store_sadd_self _ _ _ _).mpr (Or.inr hx)
  | addSchemeType t stl =>
    obtain ⟨rfl, rfl⟩ : stKey t = k ∧ stl = ms := by
      simpa [opAdds] using ha
    rw [sadd_ok h]
    exact (smembers_store_sadd_self _ _ _ _).mpr (Or.inr hx)

theorem execOp_ok_kv_none {s s' : Store} {op : RedisOp} (h : execOp s op = Except.ok s')
    (hw : ∀ f : Fund, op ≠ RedisOp.setFund f) (k : String) :
    redis_get s' k = redis_get s k := by
  cases op with
  | setFund f => exact absurd rfl (hw f)
  | addFundHouseUnderSubType st fh fl => rw [sadd_map_ok h]; rfl
  | addFundHouse fh fl => rw [sadd_map_ok h]; rfl
  | addSchemeSubType t st hl => rw [sadd_map_ok h]; rfl
  | addSchemeType t stl => rw [sadd_ok h]; rfl

theorem execOp_ok_kv_write {s s' : Store} {f : Fund}
    (h : execOp s (RedisOp.setFund f) = Except.ok s') :
    redis_get s' (fundKey f.SchemeName) = some (serialize_fund f) ∧
    ∀ k, k ≠ fundKey f.SchemeName → redis_get s' k = redis_get s k := by
  unfold execOp at h
  injection h with h'
  subst h'
  constructor
  · rw [set_fund, redis_get_sugadd, redis_get_redis_set_self]
  · intro k hk
    rw [set_fund, redis_get_sugadd, redis_get_redis_set_ne _ _ _ _ hk]

theorem runOps_ok_cons {s s' : Store} {op : RedisOp} {ops : List RedisOp}
    (h : runOps s (op :: ops) = Except.ok s') :
    ∃ s1, execOp s op = Except.ok s1 ∧ runOps s1 ops = Except.ok s' := by
  unfold runOps at h
  cases he : execOp s op with
  | error e => rw [he] at h; simp at h
  | ok s1 => rw [he] at h; exact ⟨s1, rfl, h⟩

theorem runOps_ok_sets_mono {ops : List RedisOp} {s s' : Store}
    (h : runOps s ops = Except.ok s') (k x : String) (hx : x ∈ smembers s k) :
    x ∈ smembers s' k := by
  induction ops generalizing s with
  | nil =>
    unfold runOps at h
    injection h with h'
    subst h'
    exact hx
  | cons op0 rest ih =>
    obtain ⟨s1, he, hr⟩ := runOps_ok_cons h
    exact ih hr (execOp_ok_sets_mono he k x hx)

theorem runOps_ok_adds {ops : List RedisOp} {s s' : Store} {op : RedisOp} {k : String}
    {ms : List String} (hmem : op ∈ ops) (ha : opAdds op = some (k, ms)) {x : String}
    (hx : x ∈ ms) (h : runOps s ops = Except.ok s') : x ∈ smembers s' k := by
  induction ops generalizing s with
  | nil => simp at hmem
  | cons op0 rest ih =>
    obtain ⟨s1, he, hr⟩ := runOps_ok_cons h
    rcases List.mem_cons.mp hmem with heq | hmem'
    · subst heq
      exact runOps_ok_sets_mono hr k x (execOp_ok_adds he ha hx)
    · exact ih hmem' hr

theorem runOps_ok_kv_no_writer {ops : List RedisOp} {s s' : Store} {K : String}
    (hnw : ∀ g : Fund, RedisOp.setFund g ∈ ops → fundKey g.SchemeName ≠ K)
    (h : runOps s ops = Except.ok s') : redis_get s' K = redis_get s K := by
  induction ops generalizing s with
  | nil =>
    unfold runOps at h
    injection h with h'
    subst h'
    rfl
  | cons op0 rest ih =>
    obtain ⟨s1, he, hr⟩ := runOps_ok_cons h
    have hrest : ∀ g : Fund, RedisOp.setFund g ∈ rest → fundKey g.SchemeName ≠ K :=
      fun g hm => hnw g (List.mem_cons_of_mem _ hm)
    have hstep : redis_get s1 K = redis_get s K := by
      cases op0 with
      | setFund g =>
        exact (execOp_ok_kv_write he).2 K
          (fun hh => hnw g (List.mem_cons_self _ _) (hh ▸ rfl))
      | addFundHouseUnderSubType st fh fl => exact execOp_ok_kv_none he (by simp) K
      | addFundHouse fh fl => exact execOp_ok_kv_none he (by simp) K
      | addSchemeSubType t st hl => exact execOp_ok_kv_none he (by simp) K
      | addSchemeType t stl => exact execOp_ok_kv_none he (by simp) K
    rw [ih hrest hr, hstep]

theorem runOps_ok_kv_writer {ops : List RedisOp} {s s' : Store} {g : Fund}
    (hmem : RedisOp.setFund g ∈ ops)
    (huniq : ∀ g' : Fund, RedisOp.setFund g' ∈ ops →
      fundKey g'.SchemeName = fundKey g.SchemeName → serialize_fund g' = serialize_fund g)
    (h : runOps s ops = Except.ok s') :
    redis_get s' (fundKey g.SchemeName) = some (serialize_fund g) := by
  induction ops generalizing s g with
  | nil => simp at hmem
  | cons op0 rest ih =>
    obtain ⟨s1, he, hr⟩ := runOps_ok_cons h
    by_cases hrest : ∃ g' : Fund, RedisOp.setFund g' ∈ rest ∧
      fundKey g'.SchemeName = fundKey g.SchemeName
    · obtain ⟨g', hg'mem, hg'key⟩ := hrest
      have hval : serialize_fund g' = serialize_fund g :=
        huniq g' (List.mem_cons_of_mem _ hg'mem) hg'key
      have hmain : redis_get s' (fundKey g'.SchemeName) = some (serialize_fund g') := by
        refine ih hg'mem (fun g'' hm hk => ?_) hr
        rw [huniq g'' (List.mem_cons_of_mem _ hm) (hk.trans hg'key), hval]
      rw [hg'key, hval] at hmain
      exact hmain
    · push_neg at hrest
      rcases List.mem_cons.mp hmem with heq | hmem'
      · rw [← heq] at he
        rw [runOps_ok_kv_no_writer hrest hr, (execOp_ok_kv_write he).1]
      · exact absurd rfl (hrest g hmem')

/-! ## Membership in the rebuild's operation list -/

theorem mem_futures_of_typeOps {snap : Snapshot} {t : String}
    {stl : List (String × List (String × List Fund))} {op : RedisOp}
    (h1 : (t, stl) ∈ snap) (hop : op ∈ typeOps t stl) : op ∈ redis_futures snap :=
  List.mem_flatMap.mpr ⟨(t, stl), h1, hop⟩

theorem mem_typeOps_of_subTypeOps {t st : String}
    {stl : List (String × List (String × List Fund))} {hl : List (String × List Fund)}
    {op : RedisOp} (h2 : (st, hl) ∈ stl) (hop : op ∈ subTypeOps t st hl) :
    op ∈ typeOps t stl :=
  List.mem_append.mpr (Or.inl (List.mem_flatMap.mpr ⟨(st, hl), h2, hop⟩))

theorem mem_subTypeOps_of_houseOps {t st fh : String} {hl : List (String × List Fund)}
    {fl : List Fund} {op : RedisOp} (h3 : (fh, fl) ∈ hl) (hop : op ∈ houseOps t st fh fl) :
    op ∈ subTypeOps t st hl :=
  List.mem_append.mpr (Or.inl (List.mem_flatMap.mpr ⟨(fh, fl), h3, hop⟩))

theorem quad_ops_mem {snap : Snapshot} {t st fh : String}
    {stl : List (String × List (String × List Fund))} {hl : List (String × List Fund)}
    {fl : List Fund}
    (h1 : (t, stl) ∈ snap) (h2 : (st, hl) ∈ stl) (h3 : (fh, fl) ∈ hl) :
    RedisOp.addFundHouseUnderSubType st fh (fl.map Fund.SchemeName) ∈ redis_futures snap ∧
    RedisOp.addFundHouse fh (fl.map Fund.SchemeName) ∈ redis_futures snap ∧
    RedisOp.addSchemeSubType t st (hl.map Prod.fst) ∈ redis_futures snap ∧
    RedisOp.addSchemeType t (stl.map Prod.fst) ∈ redis_futures snap ∧
    ∀ f ∈ fl, RedisOp.setFund (stamp f t st fh) ∈ redis_futures snap := by
  refine ⟨?_, ?_, ?_, ?_, ?_⟩
  · exact mem_futures_of_typeOps h1 (mem_typeOps_of_subTypeOps h2
      (mem_subTypeOps_of_houseOps h3 (List.mem_append.mpr (Or.inr (by simp)))))
  · exact mem_futures_of_typeOps h1 (mem_typeOps_of_subTypeOps h2
      (mem_subTypeOps_of_houseOps h3 (List.mem_append.mpr (Or.inr (by simp)))))
  · exact mem_futures_of_typeOps h1 (mem_typeOps_of_subTypeOps h2
      (List.mem_append.mpr (Or.inr (by simp))))
  · exact mem_futures_of_typeOps h1 (List.mem_append.mpr (Or.inr (by simp)))
  · intro f hf
    exact mem_futures_of_typeOps h1 (mem_typeOps_of_subTypeOps h2
      (mem_subTypeOps_of_houseOps h3
        (List.mem_append.mpr (Or.inl (List.mem_map.mpr ⟨f, hf, rfl⟩)))))

theorem mem_quads {snap : Snapshot} {t st fh : String} {f : Fund}
    {stl : List (String × List (String × List Fund))} {hl : List (String × List Fund)}
    {fl : List Fund}
    (h1 : (t, stl) ∈ snap) (h2 : (st, hl) ∈ stl) (h3 : (fh, fl) ∈ hl) (h4 : f ∈ fl) :
    (t, st, fh, f) ∈ quads snap := by
  unfold quads
  exact List.mem_flatMap.mpr ⟨(t, stl), h1, List.mem_flatMap.mpr ⟨(st, hl), h2,
    List.mem_flatMap.mpr ⟨(fh, fl), h3, List.mem_map.mpr ⟨f, h4, rfl⟩⟩⟩⟩

/-- Every `setFund` in the rebuild's operation list is the stamped fund
of some quadruple of the snapshot. -/
theorem setFund_mem_futures {snap : Snapshot} {g : Fund}
    (h : RedisOp.setFund g ∈ redis_futures snap) :
    ∃ t st fh f, (t, st, fh, f) ∈ quads snap ∧ g = stamp f t st fh := by
  unfold redis_futures at h
  obtain ⟨⟨t, stl⟩, hts, h⟩ := List.mem_flatMap.mp h
  unfold typeOps at h
  rcases List.mem_append.mp h with h | h
  · obtain ⟨⟨st, hl⟩, hsts, h⟩ := List.mem_flatMap.mp h
    unfold subTypeOps at h
    rcases List.mem_append.mp h with h | h
    · obtain ⟨⟨fh, fl⟩, hfhs, h⟩ := List.mem_flatMap.mp h
      unfold houseOps at h
      rcases List.mem_append.mp h with h | h
      · obtain ⟨f, hf, hg⟩ := List.mem_map.mp h
        refine ⟨t, st, fh, f, mem_quads hts hsts hfhs hf, ?_⟩
        injection hg with hg'
        exact hg'.symm
      · simp at h
    · simp at h
  · simp at h

theorem string_append_left_cancel {a b c : String} (h : a ++ b = a ++ c) : b = c := by
  have hd : a.data ++ b.data = a.data ++ c.data := by
    rw [← String.data_append, ← String.data_append, h]
  have hbc : b.data = c.data := List.append_cancel_left hd
  calc b = String.mk b.data := rfl
    _ = String.mk c.data := by rw [hbc]
    _ = c := rfl

theorem fundKey_inj {a b : String} (h : fundKey a = fundKey b) : a = b :=
  string_append_left_cancel h

theorem stamp_SchemeName (f : Fund) (t st fh : String) :
    (stamp f t st fh).SchemeName = f.SchemeName := rfl

/-! ## Claim C1 -/

/-- Claim C1: after a rebuild completes successfully (`hrun`), every
fund of the snapshot is reachable via all four hierarchy levels: its
record — stamped with its scheme type, scheme sub-type and fund house —
is stored under `FUND:<SchemeName>` (read back here through `getFund`),
its name is a member of the `FUND_HOUSE:<house>` set and of the
`SCHEME_SUB_TYPE_FUND_HOUSE:<subType>:<house>` set, its fund house is a
member of the `SCHEME_SUB_TYPE:<type>:<subType>` set, and its sub-type
is a member of the `SCHEME_TYPE:<type>` set.  `hpk` is the spec's
data-model invariant that `SchemeName` is a primary key. -/
theorem rebuild_reachability (snap : Snapshot) (s0 s1 : Store)
    (hpk : PrimaryKey snap)
    (hrun : update_mf_cache snap s0 = Except.ok s1)
    {t st fh : String} {stl : List (String × List (String × List Fund))}
    {hl : List (String × List Fund)} {fl : List Fund} {f : Fund}
    (h1 : (t, stl) ∈ snap) (h2 : (st, hl) ∈ stl) (h3 : (fh, fl) ∈ hl) (h4 : f ∈ fl) :
    get_fund s1 f.SchemeName = Except.ok (stamp f t st fh) ∧
    f.SchemeName ∈ smembers s1 (fundHouseKey fh) ∧
    f.SchemeName ∈ smembers s1 (sstfhKey st fh) ∧
    fh ∈ smembers s1 (sstKey t st) ∧
    st ∈ smembers s1 (stKey t) := by
  unfold update_mf_cache at hrun
  obtain ⟨m1, m2, m3, m4, m5⟩ := quad_ops_mem h1 h2 h3
  have hname : f.SchemeName ∈ fl.map Fund.SchemeName := List.mem_map.mpr ⟨f, h4, rfl⟩
  have hfh : fh ∈ hl.map Prod.fst := List.mem_map.mpr ⟨(fh, fl), h3, rfl⟩
  have hst : st ∈ stl.map Prod.fst := List.mem_map.mpr ⟨(st, hl), h2, rfl⟩
  refine ⟨?_, ?_, ?_, ?_, ?_⟩
  · -- the stored record
    have hq : (t, st, fh, f) ∈ quads snap := mem_quads h1 h2 h3 h4
    have huniq : ∀ g' : Fund, RedisOp.setFund g' ∈ redis_futures snap →
        fundKey g'.SchemeName = fundKey (stamp f t st fh).SchemeName →
        serialize_fund g' = serialize_fund (stamp f t st fh) := by
      intro g' hg'mem hg'key
      obtain ⟨t', st', fh', f', hq', hg'⟩ := setFund_mem_futures hg'mem
      have hn : f'.SchemeName = f.SchemeName := by
        have hk := fundKey_inj hg'key
        rw [hg', stamp_SchemeName, stamp_SchemeName] at hk
        exact hk
      have hqeq : (t', st', fh', f') = (t, st, fh, f) := hpk _ hq' _ hq hn
      have ht : t' = t := congrArg (fun z => z.1) hqeq
      have hst2 : st' = st := congrArg (fun z => z.2.1) hqeq
      have hfh2 : fh' = fh := congrArg (fun z => z.2.2.1) hqeq
      have hf2 : f' = f := congrArg (fun z => z.2.2.2) hqeq
      rw [hg', ht, hst2, hfh2, hf2]
    have hget : redis_get s1 (FUND_PREFIX ++ PREFIX_DELIMTER ++ f.SchemeName)
        = some (serialize_fund (stamp f t st fh)) := by
      have hw := runOps_ok_kv_writer (m5 f h4) huniq hrun
      rw [stamp_SchemeName] at hw
      exact hw
    simp only [get_fund, get_scalar]
    rw [hget]
    simp only [deserialize_serialize]
  · exact runOps_ok_adds m2 rfl hname hrun
  · exact runOps_ok_adds m1 rfl hname hrun
  · exact runOps_ok_adds m3 rfl hfh hrun
  · exact runOps_ok_adds m4 rfl hst hrun

def c1_fund : Fund :=
  ⟨"100027", "ABC Equity Fund - Growth", "INF1", "INF2", "24.3", "12-Oct-2026", "", "", ""⟩

def c1_snap : Snapshot :=
  [("Open Ended", [("Equity", [("ABC Mutual Fund", [c1_fund])])])]

def c1_store : Store := (update_mf_cache c1_snap emptyStore).toOption.getD emptyStore

set_option maxRecDepth 10000 in
/-- Witness for `rebuild_reachability` on a one-fund snapshot. -/
theorem rebuild_reachability_witness :
    get_fund c1_store "ABC Equity Fund - Growth"
      = Except.ok (stamp c1_fund "Open Ended" "Equity" "ABC Mutual Fund") ∧
    "ABC Equity Fund - Growth" ∈ smembers c1_store (fundHouseKey "ABC Mutual Fund") ∧
    "ABC Equity Fund - Growth" ∈ smembers c1_store (sstfhKey "Equity" "ABC Mutual Fund") ∧
    "ABC Mutual Fund" ∈ smembers c1_store (sstKey "Open Ended" "Equity") ∧
    "Equity" ∈ smembers c1_store (stKey "Open Ended") :=
  @rebuild_reachability c1_snap emptyStore c1_store
    (by unfold PrimaryKey; decide) (by rfl)
    "Open Ended" "Equity" "ABC Mutual Fund"
    [("Equity", [("ABC Mutual Fund", [c1_fund])])]
    [("ABC Mutual Fund", [c1_fund])] [c1_fund] c1_fund
    (by decide) (by decide) (by decide) (by decide)

/-! ## Claim C4 -/

def c4_mid : Store := set_fund emptyStore (stamp c1_fund "Open Ended" "Equity" "ABC Mutual Fund")

set_option maxRecDepth 10000 in
/-- Claim C4 counterexample: the rebuild entry point `update_mf_cache`
contains no Idle/Running state check and the code defines no
`RebuildInProgress` error at all.  Invoked on a store that already holds
the partial writes of an in-flight rebuild (`c4_mid`), the invocation is
accepted and issues its writes (the resulting store differs from the
input), contradicting "the request is rejected with `RebuildInProgress`
and no writes from the second attempt are issued". -/
theorem rebuild_not_rejected_cex :
    (update_mf_cache c1_snap c4_mid).isOk = true ∧
    (update_mf_cache c1_snap c4_mid).toOption ≠ some c4_mid := by
  constructor
  · rfl
  · decide

/-- All `SADD`s in an operation list carry nonempty member lists. -/
def OpsOk (ops : List RedisOp) : Prop :=
  ∀ op ∈ ops, ∀ k ms, opAdds op = some (k, ms) → ms ≠ []

theorem sadd_ok_of_ne {s : Store} {k : String} {ms : List String} (h : ms ≠ []) :
    sadd s k ms = Except.ok (store_sadd s k ms) := by
  have hie : ms.isEmpty = false := by
    cases ms with
    | nil => exact absurd rfl h
    | cons a l => rfl
  unfold sadd
  rw [hie]
  simp

theorem execOp_ok_total {op : RedisOp} (s : Store)
    (h : ∀ k ms, opAdds op = some (k, ms) → ms ≠ []) :
    ∃ s1, execOp s op = Except.ok s1 := by
  cases op with
  | setFund f => exact ⟨set_fund s f, rfl⟩
  | addFundHouseUnderSubType st fh fl =>
    have heq : add_fund_house_under_sub_type s st fh fl
        = Except.ok (sugadd (store_sadd s (sstfhKey st fh) fl)
            SCHEME_SUB_TYPE_FUND_HOUSE_AUTOCOMPLETER_KEY (sstfhKey st fh)) := by
      rw [add_fund_house_under_sub_type, sadd_ok_of_ne (h _ _ rfl)]
      rfl
    exact ⟨_, heq⟩
  | addFundHouse fh fl =>
    have heq : add_fund_house s fh fl
        = Except.ok (sugadd (store_sadd s (fundHouseKey fh) fl)
            FUND_HOUSE_AUTOCOMPLETER_KEY (fundHouseKey fh)) := by
      rw [add_fund_house, sadd_ok_of_ne (h _ _ rfl)]
      rfl
    exact ⟨_, heq⟩
  | addSchemeSubType t st hl =>
    have heq : add_scheme_sub_type s t st hl
        = Except.ok (sugadd (store_sadd s (sstKey t st) hl)
            SCHEME_SUB_TYPE_AUTOCOMPLETER_KEY (sstKey t st)) := by
      rw [add_scheme_sub_type, sadd_ok_of_ne (h _ _ rfl)]
      rfl
    exact ⟨_, heq⟩
  | addSchemeType t stl =>
    have heq : add_scheme_type s t stl = Except.ok (store_sadd s (stKey t) stl) := by
      rw [add_scheme_type, sadd_ok_of_ne (h _ _ rfl)]
    exact ⟨_, heq⟩

theorem runOps_total {ops : List RedisOp} (hok : OpsOk ops) (s : Store) :
    ∃ s', runOps s ops = Except.ok s' := by
  induction ops generalizing s with
  | nil => exact ⟨s, rfl⟩
  | cons op rest ih =>
    obtain ⟨s1, hs1⟩ := execOp_ok_total s (hok op (List.mem_cons_self _ _))
    obtain ⟨s', hs'⟩ := ih (fun op' hm => hok op' (List.mem_cons_of_mem _ hm)) s1
    refine ⟨s', ?_⟩
    unfold runOps
    rw [hs1]
    exact hs'

theorem futures_opsOk {snap : Snapshot} (hwf : WellFormed snap) :
    OpsOk (redis_futures snap) := by
  intro op hop k ms ha
  unfold redis_futures at hop
  obtain ⟨⟨t, stl⟩, hts, hop⟩ := List.mem_flatMap.mp hop
  unfold typeOps at hop
  rcases List.mem_append.mp hop with hop | hop
  · obtain ⟨⟨st, hl⟩, hsts, hop⟩ := List.mem_flatMap.mp hop
    unfold subTypeOps at hop
    rcases List.mem_append.mp hop with hop | hop
    · obtain ⟨⟨fh, fl⟩, hfls, hop⟩ := List.mem_flatMap.mp hop
      have hfl : fl ≠ [] := ((hwf _ hts).2 _ hsts).2 _ hfls
      unfold houseOps at hop
      rcases List.mem_append.mp hop with hop | hop
      · obtain ⟨f, hf, hop⟩ := List.mem_map.mp hop
        rw [← hop] at ha
        simp [opAdds] at ha
      · rcases List.mem_cons.mp hop with rfl | hop
        · obtain ⟨hk, hms⟩ : sstfhKey st fh = k ∧ fl.map Fund.SchemeName = ms := by
            simpa [opAdds] using ha
          rw [← hms]
          simp only [ne_eq, List.map_eq_nil_iff]
          exact hfl
        · rcases List.mem_singleton.mp hop with rfl
          obtain ⟨hk, hms⟩ : fundHouseKey fh = k ∧ fl.map Fund.SchemeName = ms := by
            simpa [opAdds] using ha
          rw [← hms]
          simp only [ne_eq, List.map_eq_nil_iff]
          exact hfl
    · rcases List.mem_singleton.mp hop with rfl
      have hhl : hl ≠ [] := ((hwf _ hts).2 _ hsts).1
      obtain ⟨hk, hms⟩ : sstKey t st = k ∧ hl.map Prod.fst = ms := by
        simpa [opAdds] using ha
      rw [← hms]
      simp only [ne_eq, List.map_eq_nil_iff]
      exact hhl
  · rcases List.mem_singleton.mp hop with rfl
    have hstl : stl ≠ [] := (hwf _ hts).1
    obtain ⟨hk, hms⟩ : stKey t = k ∧ stl.map Prod.fst = ms := by
      simpa [opAdds] using ha
    rw [← hms]
    simp only [ne_eq, List.map_eq_nil_iff]
    exact hstl

/-- Claim C4 (amended): `update_mf_cache` performs no Idle/Running check
and the code defines no `RebuildInProgress` condition; invoked with any
store state — including one holding the partial writes of another
rebuild — it unconditionally executes the full write sequence, and it
succeeds on every snapshot whose hierarchy levels are all nonempty.
Serialization of rebuilds comes only from the entry point blocking its
caller until completion, never from a typed rejection. -/
theorem rebuild_unconditional (snap : Snapshot) (s : Store) (hwf : WellFormed snap) :
    ∃ s', update_mf_cache snap s = Except.ok s' :=
  runOps_total (futures_opsOk hwf) s

/-- Witness for `rebuild_unconditional`, run against a mid-rebuild store. -/
theorem rebuild_unconditional_witness :
    WellFormed c1_snap ∧ ∃ s', update_mf_cache c1_snap c4_mid = Except.ok s' :=
  ⟨by unfold WellFormed; decide,
    rebuild_unconditional c1_snap c4_mid (by unfold WellFormed; decide)⟩

/-! ## Claim C9 -/

/-- Claim C9: every add-operation performs a set-union at its composite
key — existing members are never removed, the new members are all added
— and exactly three of the four register their key as an autocomplete
suggestion in their own search namespace (leaving every other
autocompleter unchanged), while `_add_scheme_type` registers no
suggestion at all. -/
theorem add_ops_semantics (s : Store) (a b : String) (ms : List String) (hms : ms ≠ []) :
    (∃ s', add_fund_house_under_sub_type s a b ms = Except.ok s' ∧
      (∀ x, x ∈ smembers s' (sstfhKey a b) ↔ x ∈ smembers s (sstfhKey a b) ∨ x ∈ ms) ∧
      sstfhKey a b ∈ suggestions s' SCHEME_SUB_TYPE_FUND_HOUSE_AUTOCOMPLETER_KEY ∧
      (∀ y ∈ suggestions s SCHEME_SUB_TYPE_FUND_HOUSE_AUTOCOMPLETER_KEY,
        y ∈ suggestions s' SCHEME_SUB_TYPE_FUND_HOUSE_AUTOCOMPLETER_KEY) ∧
      (∀ ak, ak ≠ SCHEME_SUB_TYPE_FUND_HOUSE_AUTOCOMPLETER_KEY →
        suggestions s' ak = suggestions s ak)) ∧
    (∃ s', add_fund_house s a ms = Except.ok s' ∧
      (∀ x, x ∈ smembers s' (fundHouseKey a) ↔ x ∈ smembers s (fundHouseKey a) ∨ x ∈ ms) ∧
      fundHouseKey a ∈ suggestions s' FUND_HOUSE_AUTOCOMPLETER_KEY ∧
      (∀ y ∈ suggestions s FUND_HOUSE_AUTOCOMPLETER_KEY,
        y ∈ suggestions s' FUND_HOUSE_AUTOCOMPLETER_KEY) ∧
      (∀ ak, ak ≠ FUND_HOUSE_AUTOCOMPLETER_KEY → suggestions s' ak = suggestions s ak)) ∧
    (∃ s', add_scheme_sub_type s a b ms = Except.ok s' ∧
      (∀ x, x ∈ smembers s' (sstKey a b) ↔ x ∈ smembers s (sstKey a b) ∨ x ∈ ms) ∧
      sstKey a b ∈ suggestions s' SCHEME_SUB_TYPE_AUTOCOMPLETER_KEY ∧
      (∀ y ∈ suggestions s SCHEME_SUB_TYPE_AUTOCOMPLETER_KEY,
        y ∈ suggestions s' SCHEME_SUB_TYPE_AUTOCOMPLETER_KEY) ∧
      (∀ ak, ak ≠ SCHEME_SUB_TYPE_AUTOCOMPLETER_KEY → suggestions s' ak = suggestions s ak)) ∧
    (∃ s', add_scheme_type s a ms = Except.ok s' ∧
      (∀ x, x ∈ smembers s' (stKey a) ↔ x ∈ smembers s (stKey a) ∨ x ∈ ms) ∧
      s'.acs = s.acs) := by
  refine ⟨⟨sugadd (store_sadd s (sstfhKey a b) ms)
      SCHEME_SUB_TYPE_FUND_HOUSE_AUTOCOMPLETER_KEY (sstfhKey a b), ?_, ?_, ?_, ?_, ?_⟩,
    ⟨sugadd (store_sadd s (fundHouseKey a) ms)
      FUND_HOUSE_AUTOCOMPLETER_KEY (fundHouseKey a), ?_, ?_, ?_, ?_, ?_⟩,
    ⟨sugadd (store_sadd s (sstKey a b) ms)
      SCHEME_SUB_TYPE_AUTOCOMPLETER_KEY (sstKey a b), ?_, ?_, ?_, ?_, ?_⟩,
    ⟨store_sadd s (stKey a) ms, ?_, ?_, ?_⟩⟩
  · rw [add_fund_house_under_sub_type, sadd_ok_of_ne hms]; rfl
  · intro x
    rw [smembers_sugadd]
    exact smembers_store_sadd_self _ _ _ _
  · exact suggestions_sugadd_mem _ _ _
  · intro y hy
    exact suggestions_sugadd_old _ _ _ _ (by rw [suggestions_store_sadd]; exact hy)
  · intro ak hak
    rw [suggestions_sugadd_ne _ _ _ _ hak, suggestions_store_sadd]
  · rw [add_fund_house, sadd_ok_of_ne hms]; rfl
  · intro x
    rw [smembers_sugadd]
    exact smembers_store_sadd_self _ _ _ _
  · exact suggestions_sugadd_mem _ _ _
  · intro y hy
    exact suggestions_sugadd_old _ _ _ _ (by rw [suggestions_store_sadd]; exact hy)
  · intro ak hak
    rw [suggestions_sugadd_ne _ _ _ _ hak, suggestions_store_sadd]
  · rw [add_scheme_sub_type, sadd_ok_of_ne hms]; rfl
  · intro x
    rw [smembers_sugadd]
    exact smembers_store_sadd_self _ _ _ _
  · exact suggestions_sugadd_mem _ _ _
  · intro y hy
    exact suggestions_sugadd_old _ _ _ _ (by rw [suggestions_store_sadd]; exact hy)
  · intro ak hak
    rw [suggestions_sugadd_ne _ _ _ _ hak, suggestions_store_sadd]
  · rw [add_scheme_type, sadd_ok_of_ne hms]
  · intro x
    exact smembers_store_sadd_self _ _ _ _
  · rfl

/-- Witness for `add_ops_semantics` at concrete inputs. -/
theorem add_ops_semantics_witness :
    (∃ s', add_fund_house_under_sub_type emptyStore "Equity" "ABC Mutual Fund" ["F1"]
        = Except.ok s' ∧
      (∀ x, x ∈ smembers s' (sstfhKey "Equity" "ABC Mutual Fund") ↔
        x ∈ smembers emptyStore (sstfhKey "Equity" "ABC Mutual Fund") ∨ x ∈ ["F1"]) ∧
      sstfhKey "Equity" "ABC Mutual Fund"
        ∈ suggestions s' SCHEME_SUB_TYPE_FUND_HOUSE_AUTOCOMPLETER_KEY ∧
      (∀ y ∈ suggestions emptyStore SCHEME_SUB_TYPE_FUND_HOUSE_AUTOCOMPLETER_KEY,
        y ∈ suggestions s' SCHEME_SUB_TYPE_FUND_HOUSE_AUTOCOMPLETER_KEY) ∧
      (∀ ak, ak ≠ SCHEME_SUB_TYPE_FUND_HOUSE_AUTOCOMPLETER_KEY →
        suggestions s' ak = suggestions emptyStore ak)) ∧
    (∃ s', add_fund_house emptyStore "Equity" ["F1"] = Except.ok s' ∧
      (∀ x, x ∈ smembers s' (fundHouseKey "Equity") ↔
        x ∈ smembers emptyStore (fundHouseKey "Equity") ∨ x ∈ ["F1"]) ∧
      fundHouseKey "Equity" ∈ suggestions s' FUND_HOUSE_AUTOCOMPLETER_KEY ∧
      (∀ y ∈ suggestions emptyStore FUND_HOUSE_AUTOCOMPLETER_KEY,
        y ∈ suggestions s' FUND_HOUSE_AUTOCOMPLETER_KEY) ∧
      (∀ ak, ak ≠ FUND_HOUSE_AUTOCOMPLETER_KEY →
        suggestions s' ak = suggestions emptyStore ak)) ∧
    (∃ s', add_scheme_sub_type emptyStore "Equity" "ABC Mutual Fund" ["F1"] = Except.ok s' ∧
      (∀ x, x ∈ smembers s' (sstKey "Equity" "ABC Mutual Fund") ↔
        x ∈ smembers emptyStore (sstKey "Equity" "ABC Mutual Fund") ∨ x ∈ ["F1"]) ∧
      sstKey "Equity" "ABC Mutual Fund" ∈ suggestions s' SCHEME_SUB_TYPE_AUTOCOMPLETER_KEY ∧
      (∀ y ∈ suggestions emptyStore SCHEME_SUB_TYPE_AUTOCOMPLETER_KEY,
        y ∈ suggestions s' SCHEME_SUB_TYPE_AUTOCOMPLETER_KEY) ∧
      (∀ ak, ak ≠ SCHEME_SUB_TYPE_AUTOCOMPLETER_KEY →
        suggestions s' ak = suggestions emptyStore ak)) ∧
    (∃ s', add_scheme_type emptyStore "Equity" ["F1"] = Except.ok s' ∧
      (∀ x, x ∈ smembers s' (stKey "Equity") ↔
        x ∈ smembers emptyStore (stKey "Equity") ∨ x ∈ ["F1"]) ∧
      s'.acs = emptyStore.acs) :=
  add_ops_semantics emptyStore "Equity" "ABC Mutual Fund" ["F1"] (by decide)

end MFApi
